import Mathlib

/-!
Verification of the product image gallery engine and the client gallery
controller, as a shallow embedding of the TypeScript sources in
src/backend/src/services/productImage/productImageService.ts and
src/frontend/src/domain/product-image/hooks/useProductImageGallery/main.ts.

Timestamps are modelled as natural numbers; each engine operation takes the
current timestamp as an explicit argument. Inputs arrive already validated
by the zod schemas in productImageValidation.ts, so the engine functions
take typed inputs mirroring the inferred schema output types. Optional
fields are Option values; a caption field that may be a string, null, or
absent is an Option over an Option, where the outer none is the absent
field and some none is an explicit null. The JavaScript nullish coalescing
operator on such a field collapses both to the fallback.
-/

namespace ProductImage

/-- One stored gallery record, mirroring ProductImageEntity in
productImageTypes.ts. -/
structure ImageRecord where
  id : Nat
  productId : Nat
  url : String
  caption : Option String
  isPrimary : Bool
  displayOrder : Nat
  width : Nat
  height : Nat
  rotation : Nat
  dateCreated : Nat
  dateModified : Nat
deriving DecidableEq, Repr

/-- A set of fields to merge into a stored record, mirroring the
Partial ProductImageEntity argument of the storage update call.
A none field is left untouched. -/
structure ImagePatch where
  url : Option String
  caption : Option (Option String)
  isPrimary : Option Bool
  displayOrder : Option Nat
  width : Option Nat
  height : Option Nat
  rotation : Option Nat
  dateModified : Option Nat
deriving DecidableEq, Repr

/-- The patch that touches nothing. -/
def emptyPatch : ImagePatch :=
  { url := none, caption := none, isPrimary := none, displayOrder := none,
    width := none, height := none, rotation := none, dateModified := none }

/-- Merge a patch into a record; id, productId and dateCreated are never
part of a patch and are always preserved. -/
def applyPatch (r : ImageRecord) (p : ImagePatch) : ImageRecord :=
  { r with
    url := p.url.getD r.url
    caption := p.caption.getD r.caption
    isPrimary := p.isPrimary.getD r.isPrimary
    displayOrder := p.displayOrder.getD r.displayOrder
    width := p.width.getD r.width
    height := p.height.getD r.height
    rotation := p.rotation.getD r.rotation
    dateModified := p.dateModified.getD r.dateModified }

/-- Modelled from the spec: the storage collaborator of section 6
(productImageStore, whose source file is not in the repository snapshot).
Records live in insertion order; getNextId hands out a fresh integer id. -/
structure Store where
  records : List ImageRecord
  nextId : Nat
deriving DecidableEq, Repr

/-- Modelled from the spec: getAll of the storage collaborator. -/
def Store.getAll (s : Store) : List ImageRecord := s.records

/-- Modelled from the spec: getByProductId of the storage collaborator. -/
def Store.getByProductId (s : Store) (p : Nat) : List ImageRecord :=
  s.records.filter (fun r => r.productId == p)

/-- Modelled from the spec: getById of the storage collaborator. -/
def Store.getById (s : Store) (id : Nat) : Option ImageRecord :=
  s.records.find? (fun r => r.id == id)

/-- Modelled from the spec: exists of the storage collaborator. -/
def Store.existsId (s : Store) (id : Nat) : Bool :=
  s.records.any (fun r => r.id == id)

/-- Modelled from the spec: add of the storage collaborator; the record is
appended and the fresh-id counter advances past it. -/
def Store.add (s : Store) (r : ImageRecord) : Store :=
  { records := s.records ++ [r], nextId := Nat.max s.nextId (r.id + 1) }

/-- Modelled from the spec: update of the storage collaborator; merges the
patch into every record carrying the given id (in a well-formed store there
is at most one). -/
def Store.update (s : Store) (id : Nat) (p : ImagePatch) : Store :=
  { s with records := s.records.map (fun r => if r.id == id then applyPatch r p else r) }

/-- Modelled from the spec: delete of the storage collaborator; hard
removal of the record with the given id. -/
def Store.deleteId (s : Store) (id : Nat) : Store :=
  { s with records := s.records.filter (fun r => r.id != id) }

/-- The store with no records. -/
def emptyStore : Store := { records := [], nextId := 1 }

/-- Well-formedness of a store: ids are pairwise distinct and the fresh-id
counter lies beyond every stored id. A live store always satisfies this. -/
def Store.WF (s : Store) : Prop :=
  (s.records.map (fun r => r.id)).Nodup ∧ ∀ r ∈ s.records, r.id < s.nextId

instance (s : Store) : Decidable s.WF := by
  unfold Store.WF
  infer_instance

/-- The error taxonomy of section 7 that the engine itself can raise. -/
inductive Err where
  | notFound
deriving DecidableEq, Repr

/-- JavaScript nullish coalescing on a field typed string or null or
absent: both the absent field and the explicit null fall back. -/
def nullish (v : Option (Option String)) (fallback : Option String) : Option String :=
  match v with
  | some (some s) => some s
  | some none => fallback
  | none => fallback

/-- Validated create payload, mirroring the inferred output type of
createSchema in productImageValidation.ts. -/
structure CreateInput where
  productId : Nat
  url : String
  caption : Option (Option String)
  isPrimary : Option Bool
  displayOrder : Option Nat
  width : Option Nat
  height : Option Nat
  rotation : Option Nat
deriving DecidableEq, Repr

/-- Validated update payload, mirroring the inferred output type of
updateSchema: url is mandatory, everything else optional. -/
structure UpdateInput where
  url : String
  caption : Option (Option String)
  isPrimary : Option Bool
  displayOrder : Option Nat
  width : Option Nat
  height : Option Nat
  rotation : Option Nat
deriving DecidableEq, Repr

/-- The patch the primary sweep writes to a formerly primary sibling. -/
def flipPatch (now : Nat) : ImagePatch :=
  { emptyPatch with isPrimary := some false, dateModified := some now }

/-- The condition under which the forEach body of business rule 001 fires
on a snapshot record: it is primary and is not the excluded self id. The
exclusion is none in create and some id in update and setPrimary,
mirroring the three occurrences of the rule in productImageService.ts. -/
def sweepGuard (exclude : Option Nat) (img : ImageRecord) : Bool :=
  (exclude.all (fun e => img.id != e)) && img.isPrimary

/-- One iteration of the forEach sweep over the sibling snapshot: when the
guard fires, the stored counterpart of the snapshot record is flipped to
non-primary with a fresh dateModified. -/
def sweepStep (now : Nat) (exclude : Option Nat) (st : Store) (img : ImageRecord) : Store :=
  if sweepGuard exclude img then
    st.update img.id (flipPatch now)
  else st

/-- The forEach sweep over a snapshot list of siblings. -/
def sweepList (now : Nat) (exclude : Option Nat) (st : Store) (sibs : List ImageRecord) : Store :=
  sibs.foldl (sweepStep now exclude) st

/-- The primary-exclusivity sweep: snapshot the records of the product,
then flip every primary one apart from the excluded id. -/
def sweepPrimary (s : Store) (p : Nat) (exclude : Option Nat) (now : Nat) : Store :=
  sweepList now exclude s (s.getByProductId p)

/-- The per-record effect of one storage update call. -/
def updFun (id : Nat) (p : ImagePatch) (r : ImageRecord) : ImageRecord :=
  if r.id == id then applyPatch r p else r

/-- The per-record effect of one sweep iteration. -/
def stepFun (now : Nat) (exclude : Option Nat) (img : ImageRecord) (r : ImageRecord) :
    ImageRecord :=
  if sweepGuard exclude img then updFun img.id (flipPatch now) r else r

/-- The per-record effect of a whole sweep over the snapshot sibs: a record
is flipped exactly when some snapshot record with its id satisfies the
guard. -/
def sweepFun (now : Nat) (exclude : Option Nat) (sibs : List ImageRecord) (r : ImageRecord) :
    ImageRecord :=
  if sibs.any (fun img => img.id == r.id && sweepGuard exclude img) then
    applyPatch r (flipPatch now)
  else r

/-- The predicate counted by primaryCount. -/
def primP (q : Nat) (r : ImageRecord) : Bool :=
  r.productId == q && r.isPrimary

/-- The lighter projection returned by the list operation, mirroring
ProductImageListResponse: width, height, rotation and dateModified are
omitted. -/
structure ListResponse where
  id : Nat
  productId : Nat
  url : String
  caption : Option String
  isPrimary : Bool
  displayOrder : Nat
  dateCreated : Nat
deriving DecidableEq, Repr

/-- Projection of a stored record to the list response shape. -/
def toListResponse (e : ImageRecord) : ListResponse :=
  { id := e.id, productId := e.productId, url := e.url, caption := e.caption,
    isPrimary := e.isPrimary, displayOrder := e.displayOrder, dateCreated := e.dateCreated }

/-- productImageList: fetch all records, filter when the productId argument
is truthy (present and nonzero), and project each record to the list
response shape. No sorting is applied. -/
def productImageList (s : Store) (productId : Option Nat) : List ListResponse :=
  let records := s.getAll
  let filtered :=
    match productId with
    | some p => if p == 0 then records else records.filter (fun r => r.productId == p)
    | none => records
  filtered.map toListResponse

/-- productImageCreate on an already validated body: sweep the primary
flag off the siblings when the new image is primary, resolve a zero or
omitted displayOrder to one past the sibling maximum (or one when there
are no siblings), fill defaults, and append the new record. -/
def productImageCreate (s : Store) (params : CreateInput) (now : Nat) :
    Store × ImageRecord :=
  let id := s.nextId
  let s1 :=
    if params.isPrimary.getD false then
      sweepPrimary s params.productId none now
    else s
  let d0 := params.displayOrder.getD 0
  let displayOrder :=
    if d0 == 0 then
      let existingImages := s1.getByProductId params.productId
      if existingImages.length > 0 then
        (existingImages.map (fun i => i.displayOrder)).foldl Nat.max 0 + 1
      else 1
    else d0
  let newImage : ImageRecord :=
    { id := id
      productId := params.productId
      url := params.url
      caption := nullish params.caption none
      isPrimary := params.isPrimary.getD false
      displayOrder := displayOrder
      width := params.width.getD 1200
      height := params.height.getD 800
      rotation := params.rotation.getD 0
      dateCreated := now
      dateModified := now }
  (s1.add newImage, newImage)

/-- productImageGet on a validated id parameter: the record, or NOT_FOUND. -/
def productImageGet (s : Store) (id : Nat) : Except Err ImageRecord :=
  match s.getById id with
  | none => .error .notFound
  | some record => .ok record

/-- productImageUpdate on a validated id and body: NOT_FOUND when the id is
absent; otherwise sweep the siblings when the record newly becomes primary,
then merge the update, falling back to the prior value for every
unspecified optional field and refreshing dateModified. -/
def productImageUpdate (s : Store) (id : Nat) (updateData : UpdateInput) (now : Nat) :
    Except Err Store :=
  match s.getById id with
  | none => .error .notFound
  | some existing =>
    let s1 :=
      if updateData.isPrimary.getD false && !existing.isPrimary then
        sweepPrimary s existing.productId (some id) now
      else s
    .ok (s1.update id
      { url := some updateData.url
        caption := some (nullish updateData.caption existing.caption)
        isPrimary := some (updateData.isPrimary.getD existing.isPrimary)
        displayOrder := some (updateData.displayOrder.getD existing.displayOrder)
        width := some (updateData.width.getD existing.width)
        height := some (updateData.height.getD existing.height)
        rotation := some (updateData.rotation.getD existing.rotation)
        dateModified := some now })

/-- productImageDelete on a validated id: NOT_FOUND when the id is absent;
otherwise hard removal, with no renumbering of siblings and no
reassignment of the primary flag. -/
def productImageDelete (s : Store) (id : Nat) : Except Err Store :=
  if s.existsId id then .ok (s.deleteId id) else .error .notFound

/-- productImageReorder on a validated id and body: NOT_FOUND when the id
is absent; otherwise overwrite displayOrder and refresh dateModified. -/
def productImageReorder (s : Store) (id : Nat) (newOrder : Nat) (now : Nat) :
    Except Err Store :=
  match s.getById id with
  | none => .error .notFound
  | some _ =>
    .ok (s.update id
      { emptyPatch with displayOrder := some newOrder, dateModified := some now })

/-- productImageSetPrimary on a validated id: NOT_FOUND when the id is
absent; otherwise sweep every other sibling to non-primary and set this
record primary, refreshing dateModified on everything touched. -/
def productImageSetPrimary (s : Store) (id : Nat) (now : Nat) : Except Err Store :=
  match s.getById id with
  | none => .error .notFound
  | some existing =>
    let s1 := sweepPrimary s existing.productId (some id) now
    .ok (s1.update id
      { emptyPatch with isPrimary := some true, dateModified := some now })

/-- One engine mutation request, for reasoning about operation sequences. -/
inductive Op where
  | create (input : CreateInput) (now : Nat)
  | update (id : Nat) (input : UpdateInput) (now : Nat)
  | setPrimary (id : Nat) (now : Nat)
  | reorder (id : Nat) (newOrder : Nat) (now : Nat)
  | delete (id : Nat)
deriving DecidableEq, Repr

/-- Run one engine operation; a failing operation leaves the store as it
was, which is exactly what the service does since every NOT_FOUND check
precedes any storage mutation. -/
def applyOp (s : Store) : Op → Store
  | .create input now => (productImageCreate s input now).1
  | .update id input now =>
    match productImageUpdate s id input now with
    | .ok s2 => s2
    | .error _ => s
  | .setPrimary id now =>
    match productImageSetPrimary s id now with
    | .ok s2 => s2
    | .error _ => s
  | .reorder id newOrder now =>
    match productImageReorder s id newOrder now with
    | .ok s2 => s2
    | .error _ => s
  | .delete id =>
    match productImageDelete s id with
    | .ok s2 => s2
    | .error _ => s

/-- Run a sequence of engine operations left to right. -/
def applyOps (s : Store) (ops : List Op) : Store :=
  ops.foldl applyOp s

/-- The count of primary records of one product. -/
def primaryCount (s : Store) (p : Nat) : Nat :=
  s.records.countP (fun r => r.productId == p && r.isPrimary)

/-- Invariant I1: at most one primary image per product. -/
def atMostOnePrimary (s : Store) (p : Nat) : Prop :=
  primaryCount s p ≤ 1

instance (s : Store) (p : Nat) : Decidable (atMostOnePrimary s p) := by
  unfold atMostOnePrimary
  infer_instance

/-!
The interactive gallery controller of
src/frontend/src/domain/product-image/hooks/useProductImageGallery/main.ts,
as a state machine over the four view-state variables plus the fetched
image list. The JavaScript remainder operator is Int.tmod; the image type
is a parameter since the controller only inspects the list, never the
records. A query refetch replaces the image list and touches none of the
four state variables, mirroring that the list is query data while index,
zoom, rotation and fullscreen live in useState cells that persist across
renders.
-/

/-- The controller state: the fetched list plus the four view-state
variables of GalleryViewState. -/
structure GalleryState (α : Type) where
  images : List α
  currentIndex : Int
  zoomLevel : ℚ
  rotation : Int
  isFullscreen : Bool
deriving DecidableEq, Repr

/-- The initial controller state for a freshly fetched list: the useState
initial values index 0, zoom 1.0, rotation 0, fullscreen false. -/
def initGallery (images : List α) : GalleryState α :=
  { images := images, currentIndex := 0, zoomLevel := 1, rotation := 0, isFullscreen := false }

/-- goToNext: no-op on an empty list, otherwise advance the index modulo
the list length and reset zoom and rotation. -/
def goToNext (g : GalleryState α) : GalleryState α :=
  if g.images.length == 0 then g
  else
    { g with
      currentIndex := Int.tmod (g.currentIndex + 1) g.images.length
      zoomLevel := 1
      rotation := 0 }

/-- goToPrevious: no-op on an empty list, otherwise retreat the index
modulo the list length (adding the length first, as the source does, so the
JavaScript remainder stays nonnegative) and reset zoom and rotation. -/
def goToPrevious (g : GalleryState α) : GalleryState α :=
  if g.images.length == 0 then g
  else
    { g with
      currentIndex := Int.tmod (g.currentIndex - 1 + g.images.length) g.images.length
      zoomLevel := 1
      rotation := 0 }

/-- goToImage: jump to the given index without any bounds check, resetting
zoom and rotation. -/
def goToImage (g : GalleryState α) (index : Int) : GalleryState α :=
  { g with currentIndex := index, zoomLevel := 1, rotation := 0 }

/-- zoomIn: half a step up, clamped at 3.0. -/
def zoomIn (g : GalleryState α) : GalleryState α :=
  { g with zoomLevel := min (g.zoomLevel + 1/2) 3 }

/-- zoomOut: half a step down, clamped at 1.0. -/
def zoomOut (g : GalleryState α) : GalleryState α :=
  { g with zoomLevel := max (g.zoomLevel - 1/2) 1 }

/-- resetZoom: back to 1.0. -/
def resetZoom (g : GalleryState α) : GalleryState α :=
  { g with zoomLevel := 1 }

/-- rotateImage: a quarter turn further, wrapping at 360. -/
def rotateImage (g : GalleryState α) : GalleryState α :=
  { g with rotation := Int.tmod (g.rotation + 90) 360 }

/-- toggleFullscreen: flip the flag. -/
def toggleFullscreen (g : GalleryState α) : GalleryState α :=
  { g with isFullscreen := !g.isFullscreen }

/-- A completed list refetch: the query data is replaced while every
useState cell, the current index included, keeps its value. -/
def refreshImages (g : GalleryState α) (newImages : List α) : GalleryState α :=
  { g with images := newImages }

/-- The derived currentImage value: the JavaScript indexing expression
images[currentIndex], which is undefined outside the bounds. -/
def currentImage (g : GalleryState α) : Option α :=
  if 0 ≤ g.currentIndex ∧ g.currentIndex < g.images.length then
    g.images.get? g.currentIndex.toNat
  else none

/-- The store productImageCreate inserts into: the original store after
the conditional primary sweep. -/
def createSwept (s : Store) (input : CreateInput) (now : Nat) : Store :=
  if input.isPrimary.getD false then sweepPrimary s input.productId none now else s

/-!
Concrete instances used to witness the theorems below on computable data.
-/

/-- A create payload with caption and primary flag set, product 9. -/
def wInputA : CreateInput :=
  { productId := 9, url := "https://x/a.jpg", caption := some (some "first"),
    isPrimary := some true, displayOrder := none, width := none, height := none,
    rotation := none }

/-- A second primary create payload for product 9. -/
def wInputB : CreateInput :=
  { productId := 9, url := "https://x/b.jpg", caption := none, isPrimary := some true,
    displayOrder := none, width := none, height := none, rotation := none }

/-- A store holding exactly the record created from wInputA. -/
def wStore : Store := (productImageCreate emptyStore wInputA 1).1

/-- The record created from wInputA; it has id 1 and is primary. -/
def wRecord : ImageRecord := (productImageCreate emptyStore wInputA 1).2

/-- An update payload leaving every optional field unspecified. -/
def wUpdate : UpdateInput :=
  { url := "https://x/new.jpg", caption := none, isPrimary := none, displayOrder := none,
    width := none, height := none, rotation := none }

/-- The same update payload with an explicit null caption. -/
def wUpdateNull : UpdateInput := { wUpdate with caption := some none }

/-- A sibling of product 5 created with displayOrder 4. -/
def c2sibling : CreateInput :=
  { productId := 5, url := "https://x/s.jpg", caption := none, isPrimary := none,
    displayOrder := some 4, width := none, height := none, rotation := none }

/-- The store holding that sibling. -/
def c2store : Store := (productImageCreate emptyStore c2sibling 1).1

/-- A create payload for product 5 with displayOrder omitted. -/
def c2input : CreateInput :=
  { productId := 5, url := "https://x/t.jpg", caption := none, isPrimary := none,
    displayOrder := none, width := none, height := none, rotation := none }

/-- A create payload for product 5 with displayOrder 2. -/
def c4input1 : CreateInput :=
  { productId := 5, url := "https://x/a.jpg", caption := none, isPrimary := none,
    displayOrder := some 2, width := none, height := none, rotation := none }

/-- A create payload for product 5 with displayOrder 1. -/
def c4input2 : CreateInput :=
  { productId := 5, url := "https://x/b.jpg", caption := none, isPrimary := none,
    displayOrder := some 1, width := none, height := none, rotation := none }

/-- A store reached by two creates whose supplied displayOrders descend. -/
def c4store : Store :=
  (productImageCreate (productImageCreate emptyStore c4input1 1).1 c4input2 2).1

/-- The first record of c4store. -/
def c4rec1 : ImageRecord := (productImageCreate emptyStore c4input1 1).2

/-- A controller state on a three-image list navigated to index 2. -/
def c9state : GalleryState Nat := goToNext (goToNext (initGallery [10, 20, 30]))

/-!
Helper lemmas: a pointwise characterization of the forEach sweep as a
single map over the record list, and the field-preservation facts the
claim proofs lean on.
-/

theorem applyPatch_id (r : ImageRecord) (p : ImagePatch) : (applyPatch r p).id = r.id := rfl

theorem applyPatch_productId (r : ImageRecord) (p : ImagePatch) :
    (applyPatch r p).productId = r.productId := rfl

theorem applyPatch_dateCreated (r : ImageRecord) (p : ImagePatch) :
    (applyPatch r p).dateCreated = r.dateCreated := rfl

theorem applyPatch_flip (r : ImageRecord) (now : Nat) :
    applyPatch r (flipPatch now) = { r with isPrimary := false, dateModified := now } := rfl

theorem applyPatch_flip_idem (r : ImageRecord) (now : Nat) :
    applyPatch (applyPatch r (flipPatch now)) (flipPatch now) = applyPatch r (flipPatch now) := rfl

theorem Store.update_records (s : Store) (id : Nat) (p : ImagePatch) :
    (s.update id p).records = s.records.map (updFun id p) := rfl

theorem Store.update_nextId (s : Store) (id : Nat) (p : ImagePatch) :
    (s.update id p).nextId = s.nextId := rfl

theorem sweepStep_records (now : Nat) (exclude : Option Nat) (s : Store) (img : ImageRecord) :
    (sweepStep now exclude s img).records = s.records.map (stepFun now exclude img) := by
  unfold sweepStep stepFun
  split
  · rfl
  · simp

theorem sweepStep_nextId (now : Nat) (exclude : Option Nat) (s : Store) (img : ImageRecord) :
    (sweepStep now exclude s img).nextId = s.nextId := by
  unfold sweepStep
  split <;> rfl

theorem sweepFun_step (now : Nat) (exclude : Option Nat) (img : ImageRecord)
    (rest : List ImageRecord) (r : ImageRecord) :
    sweepFun now exclude rest (stepFun now exclude img r) =
      sweepFun now exclude (img :: rest) r := by
  by_cases hg : sweepGuard exclude img = true
  · by_cases hr : r.id = img.id
    · have h1 : stepFun now exclude img r = applyPatch r (flipPatch now) := by
        simp [stepFun, updFun, hg, hr]
      rw [h1]
      have h2 : sweepFun now exclude rest (applyPatch r (flipPatch now)) =
          applyPatch r (flipPatch now) := by
        unfold sweepFun
        split
        · exact applyPatch_flip_idem r now
        · rfl
      rw [h2]
      unfold sweepFun
      rw [if_pos]
      simp [List.any_cons, hg, hr]
    · have h1 : stepFun now exclude img r = r := by
        simp [stepFun, updFun, hr]
      rw [h1]
      unfold sweepFun
      have h3 : (img.id == r.id) = false := by
        simp only [beq_eq_false_iff_ne, ne_eq]
        intro h
        exact hr h.symm
      simp [List.any_cons, h3]
  · have h1 : stepFun now exclude img r = r := by
      simp [stepFun, hg]
    rw [h1]
    unfold sweepFun
    have hg2 : sweepGuard exclude img = false := by
      exact Bool.not_eq_true _ |>.mp hg
    simp [List.any_cons, hg2]

theorem sweepList_records (now : Nat) (exclude : Option Nat) (sibs : List ImageRecord)
    (s : Store) :
    (sweepList now exclude s sibs).records = s.records.map (sweepFun now exclude sibs) := by
  induction sibs generalizing s with
  | nil =>
    have h : ∀ r ∈ s.records, sweepFun now exclude [] r = id r := by
      intro r _
      simp [sweepFun]
    exact ((List.map_congr_left h).trans (List.map_id _)).symm
  | cons img rest ih =>
    show (sweepList now exclude (sweepStep now exclude s img) rest).records = _
    rw [ih, sweepStep_records, List.map_map]
    exact List.map_congr_left (fun r _ => sweepFun_step now exclude img rest r)

theorem sweepList_nextId (now : Nat) (exclude : Option Nat) (sibs : List ImageRecord)
    (s : Store) :
    (sweepList now exclude s sibs).nextId = s.nextId := by
  induction sibs generalizing s with
  | nil => rfl
  | cons img rest ih =>
    show (sweepList now exclude (sweepStep now exclude s img) rest).nextId = _
    rw [ih, sweepStep_nextId]

theorem sweepPrimary_records (s : Store) (p : Nat) (exclude : Option Nat) (now : Nat) :
    (sweepPrimary s p exclude now).records =
      s.records.map (sweepFun now exclude (s.getByProductId p)) :=
  sweepList_records now exclude (s.getByProductId p) s

theorem sweepPrimary_nextId (s : Store) (p : Nat) (exclude : Option Nat) (now : Nat) :
    (sweepPrimary s p exclude now).nextId = s.nextId :=
  sweepList_nextId now exclude (s.getByProductId p) s

theorem sweepFun_id (now : Nat) (exclude : Option Nat) (sibs : List ImageRecord)
    (r : ImageRecord) : (sweepFun now exclude sibs r).id = r.id := by
  unfold sweepFun
  split <;> rfl

theorem sweepFun_productId (now : Nat) (exclude : Option Nat) (sibs : List ImageRecord)
    (r : ImageRecord) : (sweepFun now exclude sibs r).productId = r.productId := by
  unfold sweepFun
  split <;> rfl

theorem sweepFun_displayOrder (now : Nat) (exclude : Option Nat) (sibs : List ImageRecord)
    (r : ImageRecord) : (sweepFun now exclude sibs r).displayOrder = r.displayOrder := by
  unfold sweepFun
  split <;> rfl

theorem sweepFun_isPrimary_imp (now : Nat) (exclude : Option Nat) (sibs : List ImageRecord)
    (r : ImageRecord) (h : (sweepFun now exclude sibs r).isPrimary = true) :
    r.isPrimary = true := by
  unfold sweepFun at h
  by_cases hc :
      (sibs.any (fun img => img.id == r.id && sweepGuard exclude img)) = true
  · rw [if_pos hc] at h
    exact absurd h (by simp [applyPatch_flip])
  · rwa [if_neg hc] at h

/-- Look-up by id commutes with an id-preserving map of the record list. -/
theorem find?_id_map (l : List ImageRecord) (f : ImageRecord → ImageRecord)
    (hf : ∀ r, (f r).id = r.id) (id : Nat) :
    (l.map f).find? (fun r => r.id == id) = (l.find? (fun r => r.id == id)).map f := by
  induction l with
  | nil => rfl
  | cons a l ih =>
    simp only [List.map_cons, List.find?_cons]
    rw [hf a]
    cases h : (a.id == id) with
    | true => rfl
    | false => exact ih

theorem getById_mem (s : Store) (id : Nat) (r : ImageRecord) (h : s.getById id = some r) :
    r ∈ s.records ∧ r.id = id := by
  refine ⟨List.mem_of_find?_eq_some h, ?_⟩
  have := List.find?_some h
  simpa using this

/-- In a store with pairwise distinct ids, every stored record is found by
its own id. -/
theorem getById_of_mem (s : Store) (hN : (s.records.map (fun r => r.id)).Nodup)
    (r : ImageRecord) (hr : r ∈ s.records) : s.getById r.id = some r := by
  unfold Store.getById
  cases hfind : s.records.find? (fun x => x.id == r.id) with
  | none =>
    rw [List.find?_eq_none] at hfind
    exact absurd (by simp : (r.id == r.id) = true) (hfind r hr)
  | some x =>
    have hx := List.find?_some hfind
    have hxm : x ∈ s.records := List.mem_of_find?_eq_some hfind
    have hxr : x = r := List.inj_on_of_nodup_map hN hxm hr (by simpa using hx)
    rw [hxr]

theorem getById_none_iff (s : Store) (id : Nat) :
    s.getById id = none ↔ s.existsId id = false := by
  unfold Store.getById Store.existsId
  rw [List.find?_eq_none, List.any_eq_false]

theorem primaryCount_eq (s : Store) (q : Nat) :
    primaryCount s q = s.records.countP (primP q) := rfl

/-- A pointwise-monotone transformation of the record list cannot raise a
primary count. -/
theorem countP_map_le (l : List ImageRecord) (f : ImageRecord → ImageRecord)
    (p : ImageRecord → Bool) (h : ∀ r ∈ l, p (f r) = true → p r = true) :
    (l.map f).countP p ≤ l.countP p := by
  rw [List.countP_map]
  exact List.countP_mono_left h

/-- When every record satisfying the predicate carries one fixed id, a
duplicate-free store holds at most one such record. -/
theorem countP_le_one_of_id (l : List ImageRecord)
    (hN : (l.map (fun r => r.id)).Nodup) (p : ImageRecord → Bool) (tid : Nat)
    (h : ∀ r ∈ l, p r = true → r.id = tid) : l.countP p ≤ 1 := by
  have h1 : l.countP p ≤ l.countP (fun r => r.id == tid) :=
    List.countP_mono_left (fun r hr hp => by simp [h r hr hp])
  have h2 : l.countP (fun r => r.id == tid) = (l.map (fun r => r.id)).countP (fun x => x == tid) := by
    rw [List.countP_map]
    rfl
  have h3 : (l.map (fun r => r.id)).countP (fun x => x == tid) ≤ 1 := by
    rw [← List.count_eq_countP]
    exact List.nodup_iff_count_le_one.mp hN tid
  omega

/-- The create sweep (no excluded id) flips a primary record of the swept
product. -/
theorem sweepFun_none_flips (l : List ImageRecord) (p now : Nat) (r : ImageRecord)
    (hr : r ∈ l) (hp : r.productId = p) (hprim : r.isPrimary = true) :
    sweepFun now none (l.filter (fun x => x.productId == p)) r =
      applyPatch r (flipPatch now) := by
  unfold sweepFun
  rw [if_pos]
  apply List.any_eq_true.mpr
  refine ⟨r, List.mem_filter.mpr ⟨hr, by simp [hp]⟩, ?_⟩
  simp [sweepGuard, hprim]

/-- After the create sweep no record of the swept product is primary. -/
theorem sweepFun_none_notPrimary (l : List ImageRecord) (p now : Nat) (r : ImageRecord)
    (hr : r ∈ l) (hp : r.productId = p) :
    (sweepFun now none (l.filter (fun x => x.productId == p)) r).isPrimary = false := by
  by_cases hprim : r.isPrimary = true
  · rw [sweepFun_none_flips l p now r hr hp hprim]
    simp [applyPatch_flip]
  · unfold sweepFun
    split
    · simp [applyPatch_flip]
    · exact Bool.not_eq_true _ |>.mp hprim

/-- After a sweep excluding one id, no record of the swept product other
than the excluded one is primary. -/
theorem sweepFun_excl_notPrimary (l : List ImageRecord) (p tid now : Nat) (r : ImageRecord)
    (hr : r ∈ l) (hp : r.productId = p) (hid : r.id ≠ tid) :
    (sweepFun now (some tid) (l.filter (fun x => x.productId == p)) r).isPrimary = false := by
  by_cases hprim : r.isPrimary = true
  · unfold sweepFun
    rw [if_pos]
    · simp [applyPatch_flip]
    · apply List.any_eq_true.mpr
      refine ⟨r, List.mem_filter.mpr ⟨hr, by simp [hp]⟩, ?_⟩
      simp [sweepGuard, hprim, hid]
  · unfold sweepFun
    split
    · simp [applyPatch_flip]
    · exact Bool.not_eq_true _ |>.mp hprim

/-- A sweep excluding an id leaves every record carrying that id alone. -/
theorem sweepFun_excl_self (sibs : List ImageRecord) (tid now : Nat) (r : ImageRecord)
    (hid : r.id = tid) : sweepFun now (some tid) sibs r = r := by
  unfold sweepFun
  rw [if_neg]
  intro hany
  obtain ⟨img, _, himg⟩ := List.any_eq_true.mp hany
  have h1 : img.id = r.id := by
    have := (Bool.and_eq_true _ _).mp himg |>.1
    simpa using this
  have h2 : sweepGuard (some tid) img = true := (Bool.and_eq_true _ _).mp himg |>.2
  unfold sweepGuard at h2
  have h3 : (img.id != tid) = true := by
    have := (Bool.and_eq_true _ _).mp h2 |>.1
    simpa using this
  rw [h1, hid] at h3
  simp at h3

theorem Store.add_records (s : Store) (r : ImageRecord) :
    (s.add r).records = s.records ++ [r] := rfl

theorem Store.add_nextId (s : Store) (r : ImageRecord) :
    (s.add r).nextId = Nat.max s.nextId (r.id + 1) := rfl

theorem updFun_id (id : Nat) (p : ImagePatch) (r : ImageRecord) :
    (updFun id p r).id = r.id := by
  unfold updFun
  split <;> rfl

theorem create_fst (s : Store) (input : CreateInput) (now : Nat) :
    (productImageCreate s input now).1 =
      (createSwept s input now).add (productImageCreate s input now).2 := rfl

theorem create_snd_id (s : Store) (input : CreateInput) (now : Nat) :
    (productImageCreate s input now).2.id = s.nextId := rfl

theorem create_snd_productId (s : Store) (input : CreateInput) (now : Nat) :
    (productImageCreate s input now).2.productId = input.productId := rfl

theorem create_snd_isPrimary (s : Store) (input : CreateInput) (now : Nat) :
    (productImageCreate s input now).2.isPrimary = input.isPrimary.getD false := rfl

theorem createSwept_nextId (s : Store) (input : CreateInput) (now : Nat) :
    (createSwept s input now).nextId = s.nextId := by
  unfold createSwept
  split
  · exact sweepPrimary_nextId s input.productId none now
  · rfl

/-- Well-formedness survives any id-preserving map of the records that
keeps the fresh-id counter. -/
theorem WF_of_map (s s2 : Store) (f : ImageRecord → ImageRecord)
    (hrec : s2.records = s.records.map f) (hnext : s2.nextId = s.nextId)
    (hf : ∀ r, (f r).id = r.id) (hWF : s.WF) : s2.WF := by
  constructor
  · rw [hrec, List.map_map]
    have he : ((fun r => r.id) ∘ f) = (fun r => r.id) := funext hf
    rw [he]
    exact hWF.1
  · intro r hr
    rw [hrec] at hr
    obtain ⟨r0, hr0, hr0e⟩ := List.mem_map.mp hr
    rw [hnext, ← hr0e, hf]
    exact hWF.2 r0 hr0

theorem WF_update (s : Store) (id : Nat) (p : ImagePatch) (hWF : s.WF) :
    (s.update id p).WF :=
  WF_of_map s _ (updFun id p) (Store.update_records s id p) rfl (updFun_id id p) hWF

theorem WF_sweepPrimary (s : Store) (p : Nat) (exclude : Option Nat) (now : Nat)
    (hWF : s.WF) : (sweepPrimary s p exclude now).WF :=
  WF_of_map s _ _ (sweepPrimary_records s p exclude now) (sweepPrimary_nextId s p exclude now)
    (sweepFun_id now exclude (s.getByProductId p)) hWF

theorem WF_createSwept (s : Store) (input : CreateInput) (now : Nat) (hWF : s.WF) :
    (createSwept s input now).WF := by
  unfold createSwept
  split
  · exact WF_sweepPrimary s input.productId none now hWF
  · exact hWF

theorem WF_deleteId (s : Store) (id : Nat) (hWF : s.WF) : (s.deleteId id).WF := by
  constructor
  · have hsub : (s.records.filter (fun r => r.id != id)).Sublist s.records :=
      List.filter_sublist _
    exact List.Nodup.sublist (hsub.map (fun r => r.id)) hWF.1
  · intro r hr
    have hmem : r ∈ s.records := (List.mem_filter.mp hr).1
    exact hWF.2 r hmem

theorem WF_create (s : Store) (input : CreateInput) (now : Nat) (hWF : s.WF) :
    (productImageCreate s input now).1.WF := by
  rw [create_fst]
  have hsw : (createSwept s input now).WF := WF_createSwept s input now hWF
  have hswN : (createSwept s input now).nextId = s.nextId := createSwept_nextId s input now
  constructor
  · rw [Store.add_records, List.map_append, List.nodup_append]
    refine ⟨hsw.1, List.nodup_singleton _, ?_⟩
    intro x hx hx2
    obtain ⟨r0, hr0, hr0e⟩ := List.mem_map.mp hx
    have hlt : r0.id < s.nextId := by
      have := hsw.2 r0 hr0
      rwa [hswN] at this
    have hx2e : x = s.nextId := by
      simpa [create_snd_id] using hx2
    omega
  · intro r hr
    rw [Store.add_records] at hr
    rw [Store.add_nextId, create_snd_id, hswN]
    have hmx : Nat.max s.nextId (s.nextId + 1) = s.nextId + 1 :=
      Nat.max_eq_right (Nat.le_succ _)
    rw [hmx]
    rcases List.mem_append.mp hr with hr1 | hr2
    · have hlt : r.id < s.nextId := by
        have := hsw.2 r hr1
        rwa [hswN] at this
      omega
    · have : r = (productImageCreate s input now).2 := by simpa using hr2
      rw [this, create_snd_id]
      omega

/-- After the create sweep, the swept product has no primary image at all. -/
theorem sweep_none_count_zero (s : Store) (p now : Nat) :
    (sweepPrimary s p none now).records.countP (primP p) = 0 := by
  rw [sweepPrimary_records, List.countP_map, List.countP_eq_zero]
  intro r hr hcontra
  simp only [Function.comp, primP, Bool.and_eq_true] at hcontra
  have hq : r.productId = p := by
    have h1 := hcontra.1
    rw [sweepFun_productId] at h1
    simpa using h1
  have h2 : (sweepFun now none (s.getByProductId p) r).isPrimary = false :=
    sweepFun_none_notPrimary s.records p now r hr hq
  rw [h2] at hcontra
  exact absurd hcontra.2 (by simp)

/-- After a sweep excluding one id, every surviving primary of the swept
product carries that id. -/
theorem sweep_excl_prim_id (s : Store) (p tid now : Nat) (r : ImageRecord)
    (hr : r ∈ s.records)
    (hprim : primP p (sweepFun now (some tid) (s.getByProductId p) r) = true) :
    r.id = tid := by
  by_contra hid
  simp only [primP, Bool.and_eq_true] at hprim
  have hq : r.productId = p := by
    have h1 := hprim.1
    rw [sweepFun_productId] at h1
    simpa using h1
  have h2 : (sweepFun now (some tid) (s.getByProductId p) r).isPrimary = false :=
    sweepFun_excl_notPrimary s.records p tid now r hr hq hid
  rw [h2] at hprim
  exact absurd hprim.2 (by simp)

/-- A sweep never raises the primary count of any product. -/
theorem sweep_count_le (s : Store) (p : Nat) (exclude : Option Nat) (now q : Nat) :
    (sweepPrimary s p exclude now).records.countP (primP q) ≤
      s.records.countP (primP q) := by
  rw [sweepPrimary_records]
  apply countP_map_le
  intro r _ h
  simp only [primP, Bool.and_eq_true] at h ⊢
  refine ⟨?_, sweepFun_isPrimary_imp _ _ _ _ h.2⟩
  have h1 := h.1
  rw [sweepFun_productId] at h1
  exact h1

theorem eq_of_mem_id (s : Store) (hN : (s.records.map (fun r => r.id)).Nodup)
    (r1 r2 : ImageRecord) (h1 : r1 ∈ s.records) (h2 : r2 ∈ s.records)
    (h : r1.id = r2.id) : r1 = r2 :=
  List.inj_on_of_nodup_map hN h1 h2 h

/-!
Explicit result equations for each service function, obtained by resolving
the id look-up.
-/

theorem update_ok (s : Store) (id : Nat) (input : UpdateInput) (now : Nat)
    (ex : ImageRecord) (hg : s.getById id = some ex) :
    productImageUpdate s id input now =
      .ok ((if input.isPrimary.getD false && !ex.isPrimary then
              sweepPrimary s ex.productId (some id) now
            else s).update id
        { url := some input.url
          caption := some (nullish input.caption ex.caption)
          isPrimary := some (input.isPrimary.getD ex.isPrimary)
          displayOrder := some (input.displayOrder.getD ex.displayOrder)
          width := some (input.width.getD ex.width)
          height := some (input.height.getD ex.height)
          rotation := some (input.rotation.getD ex.rotation)
          dateModified := some now }) := by
  unfold productImageUpdate
  rw [hg]

theorem update_notFound (s : Store) (id : Nat) (input : UpdateInput) (now : Nat)
    (hg : s.getById id = none) :
    productImageUpdate s id input now = .error .notFound := by
  unfold productImageUpdate
  rw [hg]

theorem setPrimary_ok (s : Store) (id now : Nat) (ex : ImageRecord)
    (hg : s.getById id = some ex) :
    productImageSetPrimary s id now =
      .ok ((sweepPrimary s ex.productId (some id) now).update id
        { emptyPatch with isPrimary := some true, dateModified := some now }) := by
  unfold productImageSetPrimary
  rw [hg]

theorem setPrimary_notFound (s : Store) (id now : Nat) (hg : s.getById id = none) :
    productImageSetPrimary s id now = .error .notFound := by
  unfold productImageSetPrimary
  rw [hg]

theorem reorder_ok (s : Store) (id newOrder now : Nat) (ex : ImageRecord)
    (hg : s.getById id = some ex) :
    productImageReorder s id newOrder now =
      .ok (s.update id
        { emptyPatch with displayOrder := some newOrder, dateModified := some now }) := by
  unfold productImageReorder
  rw [hg]

theorem reorder_notFound (s : Store) (id newOrder now : Nat) (hg : s.getById id = none) :
    productImageReorder s id newOrder now = .error .notFound := by
  unfold productImageReorder
  rw [hg]

theorem delete_ok (s : Store) (id : Nat) (hg : s.existsId id = true) :
    productImageDelete s id = .ok (s.deleteId id) := by
  unfold productImageDelete
  rw [hg]
  rfl

theorem delete_notFound (s : Store) (id : Nat) (hg : s.existsId id = false) :
    productImageDelete s id = .error .notFound := by
  unfold productImageDelete
  rw [hg]
  rfl

theorem get_ok (s : Store) (id : Nat) (ex : ImageRecord) (hg : s.getById id = some ex) :
    productImageGet s id = .ok ex := by
  unfold productImageGet
  rw [hg]

theorem get_notFound (s : Store) (id : Nat) (hg : s.getById id = none) :
    productImageGet s id = .error .notFound := by
  unfold productImageGet
  rw [hg]

/-!
Invariant I1 is preserved by every engine operation.
-/

theorem create_preserves_count (s : Store) (input : CreateInput) (now q : Nat)
    (hI : primaryCount s q ≤ 1) :
    primaryCount (productImageCreate s input now).1 q ≤ 1 := by
  rw [primaryCount_eq] at hI ⊢
  rw [create_fst, Store.add_records, List.countP_append]
  by_cases hp : input.isPrimary.getD false = true
  · by_cases hq : q = input.productId
    · subst hq
      have h1 : (createSwept s input now).records.countP (primP input.productId) = 0 := by
        unfold createSwept
        rw [if_pos hp]
        exact sweep_none_count_zero s input.productId now
      have h2 : List.countP (primP input.productId)
          [(productImageCreate s input now).2] ≤ 1 := by
        cases hc : primP input.productId (productImageCreate s input now).2 <;>
          simp [List.countP_cons, hc]
      omega
    · have h1 : (createSwept s input now).records.countP (primP q) ≤
          s.records.countP (primP q) := by
        unfold createSwept
        rw [if_pos hp]
        exact sweep_count_le s input.productId none now q
      have h2 : List.countP (primP q) [(productImageCreate s input now).2] = 0 := by
        have hpr : primP q (productImageCreate s input now).2 = false := by
          unfold primP
          rw [create_snd_productId]
          have : (input.productId == q) = false := by
            simp
            exact fun h => hq h.symm
          simp [this]
        simp [List.countP_cons, hpr]
      omega
  · have h1 : createSwept s input now = s := by
      unfold createSwept
      rw [if_neg hp]
    have h2 : List.countP (primP q) [(productImageCreate s input now).2] = 0 := by
      have hpr : primP q (productImageCreate s input now).2 = false := by
        unfold primP
        rw [create_snd_isPrimary]
        have : input.isPrimary.getD false = false := Bool.not_eq_true _ |>.mp hp
        simp [this]
      simp [List.countP_cons, hpr]
    rw [h1, h2]
    omega

/-- The exclusivity sweep followed by any single-record update of the
excluded id leaves at most one primary per product, in a duplicate-free
store that already satisfied the bound. -/
theorem sweep_update_count (s : Store) (id now q p0 : Nat) (P : ImagePatch)
    (ex : ImageRecord) (hWF : s.WF) (hI : s.records.countP (primP q) ≤ 1)
    (hex : ex ∈ s.records) (hexid : ex.id = id) (hp0 : ex.productId = p0) :
    ((sweepPrimary s p0 (some id) now).update id P).records.countP (primP q) ≤ 1 := by
  rw [Store.update_records, sweepPrimary_records, List.map_map, List.countP_map]
  by_cases hq : q = p0
  · subst hq
    apply countP_le_one_of_id s.records hWF.1 _ id
    intro r hr hpr
    by_cases hid : r.id = id
    · exact hid
    · exfalso
      simp only [Function.comp] at hpr
      have hgid : (sweepFun now (some id) (s.getByProductId q) r).id = r.id :=
        sweepFun_id now (some id) (s.getByProductId q) r
      have hupd : updFun id P (sweepFun now (some id) (s.getByProductId q) r) =
          sweepFun now (some id) (s.getByProductId q) r := by
        unfold updFun
        rw [if_neg]
        simp [hgid, hid]
      rw [hupd] at hpr
      exact hid (sweep_excl_prim_id s q id now r hr hpr)
  · refine le_trans (List.countP_mono_left ?_) hI
    intro r hr hpr
    simp only [Function.comp] at hpr
    by_cases hid : r.id = id
    · exfalso
      have hrex : r = ex := eq_of_mem_id s hWF.1 r ex hr hex (by rw [hid, hexid])
      have hgr : sweepFun now (some id) (s.getByProductId p0) r = r :=
        sweepFun_excl_self _ id now r hid
      have hupd : updFun id P r = applyPatch r P := by
        unfold updFun
        rw [if_pos (by simp [hid])]
      rw [hgr, hupd] at hpr
      unfold primP at hpr
      rw [applyPatch_productId] at hpr
      have hqq : r.productId = q := by
        have := (Bool.and_eq_true _ _).mp hpr |>.1
        simpa using this
      rw [hrex] at hqq
      exact hq (hqq.symm.trans hp0)
    · have hgid : (sweepFun now (some id) (s.getByProductId p0) r).id = r.id :=
        sweepFun_id now (some id) (s.getByProductId p0) r
      have hupd : updFun id P (sweepFun now (some id) (s.getByProductId p0) r) =
          sweepFun now (some id) (s.getByProductId p0) r := by
        unfold updFun
        rw [if_neg]
        simp [hgid, hid]
      rw [hupd] at hpr
      unfold primP at hpr ⊢
      rw [Bool.and_eq_true] at hpr ⊢
      refine ⟨?_, sweepFun_isPrimary_imp _ _ _ _ hpr.2⟩
      have h1 := hpr.1
      rw [sweepFun_productId] at h1
      exact h1

theorem applyPatch_isPrimary (r : ImageRecord) (p : ImagePatch) :
    (applyPatch r p).isPrimary = p.isPrimary.getD r.isPrimary := rfl

/-- An update without the sweep: when the record was not newly made
primary, a single-record update cannot push the primary count past one. -/
theorem update_noSweep_count (s : Store) (id q : Nat) (input : UpdateInput) (P : ImagePatch)
    (ex : ImageRecord) (hWF : s.WF) (hI : s.records.countP (primP q) ≤ 1)
    (hex : ex ∈ s.records) (hexid : ex.id = id)
    (hbr : (input.isPrimary.getD false && !ex.isPrimary) = false)
    (hP : P.isPrimary = some (input.isPrimary.getD ex.isPrimary)) :
    (s.update id P).records.countP (primP q) ≤ 1 := by
  rw [Store.update_records, List.countP_map]
  refine le_trans (List.countP_mono_left ?_) hI
  intro r hr hpr
  simp only [Function.comp] at hpr
  by_cases hid : r.id = id
  · have hrex : r = ex := eq_of_mem_id s hWF.1 r ex hr hex (hid.trans hexid.symm)
    have hupd : updFun id P r = applyPatch r P := by
      unfold updFun
      rw [if_pos (by simp [hid])]
    rw [hupd] at hpr
    unfold primP at hpr ⊢
    rw [Bool.and_eq_true] at hpr ⊢
    obtain ⟨hq1, hq2⟩ := hpr
    rw [applyPatch_productId] at hq1
    refine ⟨hq1, ?_⟩
    rw [applyPatch_isPrimary, hP] at hq2
    have hq2e : input.isPrimary.getD ex.isPrimary = true := by simpa using hq2
    rw [hrex]
    cases hin : input.isPrimary with
    | none =>
      rw [hin] at hq2e
      simpa using hq2e
    | some bv =>
      cases bv with
      | false =>
        rw [hin] at hq2e
        simp at hq2e
      | true =>
        rw [hin] at hbr
        simpa using hbr
  · have hupd : updFun id P r = r := by
      unfold updFun
      rw [if_neg]
      simp [hid]
    rwa [hupd] at hpr

/-- An update whose patch does not touch the primary flag keeps every
flag of any record, so the primary count is unchanged pointwise. -/
theorem update_keepPrim_count (s : Store) (id q : Nat) (P : ImagePatch)
    (hP : P.isPrimary = none) (hI : s.records.countP (primP q) ≤ 1) :
    (s.update id P).records.countP (primP q) ≤ 1 := by
  rw [Store.update_records, List.countP_map]
  refine le_trans (List.countP_mono_left ?_) hI
  intro r _ hpr
  simp only [Function.comp] at hpr
  unfold updFun at hpr
  by_cases hid : (r.id == id) = true
  · rw [if_pos hid] at hpr
    unfold primP at hpr ⊢
    rw [applyPatch_productId, applyPatch_isPrimary, hP] at hpr
    exact hpr
  · rwa [if_neg hid] at hpr

theorem delete_count (s : Store) (id q : Nat) (hI : s.records.countP (primP q) ≤ 1) :
    (s.deleteId id).records.countP (primP q) ≤ 1 := by
  show (s.records.filter (fun r => r.id != id)).countP (primP q) ≤ 1
  rw [List.countP_filter]
  refine le_trans (List.countP_mono_left ?_) hI
  intro r _ h
  exact (Bool.and_eq_true _ _).mp h |>.1

/-!
Well-formedness and invariant I1 across one engine operation, then across
any operation sequence.
-/

theorem applyOp_WF (s : Store) (op : Op) (hWF : s.WF) : (applyOp s op).WF := by
  cases op with
  | create input now => exact WF_create s input now hWF
  | update id input now =>
    simp only [applyOp]
    cases hg : s.getById id with
    | none =>
      rw [update_notFound s id input now hg]
      exact hWF
    | some ex =>
      rw [update_ok s id input now ex hg]
      have h1 : (if input.isPrimary.getD false && !ex.isPrimary then
          sweepPrimary s ex.productId (some id) now else s).WF := by
        split
        · exact WF_sweepPrimary s ex.productId (some id) now hWF
        · exact hWF
      exact WF_update _ id _ h1
  | setPrimary id now =>
    simp only [applyOp]
    cases hg : s.getById id with
    | none =>
      rw [setPrimary_notFound s id now hg]
      exact hWF
    | some ex =>
      rw [setPrimary_ok s id now ex hg]
      exact WF_update _ id _ (WF_sweepPrimary s ex.productId (some id) now hWF)
  | reorder id newOrder now =>
    simp only [applyOp]
    cases hg : s.getById id with
    | none =>
      rw [reorder_notFound s id newOrder now hg]
      exact hWF
    | some ex =>
      rw [reorder_ok s id newOrder now ex hg]
      exact WF_update s id _ hWF
  | delete id =>
    simp only [applyOp]
    cases hg : s.existsId id with
    | true =>
      rw [delete_ok s id hg]
      exact WF_deleteId s id hWF
    | false =>
      rw [delete_notFound s id hg]
      exact hWF

theorem applyOp_count (s : Store) (op : Op) (q : Nat) (hWF : s.WF)
    (hI : atMostOnePrimary s q) : atMostOnePrimary (applyOp s op) q := by
  have hIc : s.records.countP (primP q) ≤ 1 := by
    rw [← primaryCount_eq]
    exact hI
  cases op with
  | create input now => exact create_preserves_count s input now q hI
  | update id input now =>
    simp only [applyOp]
    cases hg : s.getById id with
    | none =>
      rw [update_notFound s id input now hg]
      exact hI
    | some ex =>
      obtain ⟨hexm, hexid⟩ := getById_mem s id ex hg
      rw [update_ok s id input now ex hg]
      unfold atMostOnePrimary
      rw [primaryCount_eq]
      show ((if input.isPrimary.getD false && !ex.isPrimary then
          sweepPrimary s ex.productId (some id) now else s).update id _).records.countP
          (primP q) ≤ 1
      split
      case isTrue hbr =>
        exact sweep_update_count s id now q ex.productId _ ex hWF hIc hexm hexid rfl
      case isFalse hbr =>
        exact update_noSweep_count s id q input _ ex hWF hIc hexm hexid
          (Bool.not_eq_true _ |>.mp hbr) rfl
  | setPrimary id now =>
    simp only [applyOp]
    cases hg : s.getById id with
    | none =>
      rw [setPrimary_notFound s id now hg]
      exact hI
    | some ex =>
      obtain ⟨hexm, hexid⟩ := getById_mem s id ex hg
      rw [setPrimary_ok s id now ex hg]
      unfold atMostOnePrimary
      rw [primaryCount_eq]
      exact sweep_update_count s id now q ex.productId _ ex hWF hIc hexm hexid rfl
  | reorder id newOrder now =>
    simp only [applyOp]
    cases hg : s.getById id with
    | none =>
      rw [reorder_notFound s id newOrder now hg]
      exact hI
    | some ex =>
      rw [reorder_ok s id newOrder now ex hg]
      unfold atMostOnePrimary
      rw [primaryCount_eq]
      exact update_keepPrim_count s id q _ rfl hIc
  | delete id =>
    simp only [applyOp]
    cases hg : s.existsId id with
    | true =>
      rw [delete_ok s id hg]
      unfold atMostOnePrimary
      rw [primaryCount_eq]
      exact delete_count s id q hIc
    | false =>
      rw [delete_notFound s id hg]
      exact hI

theorem applyOps_both (ops : List Op) (s : Store) (q : Nat) (hWF : s.WF)
    (hI : atMostOnePrimary s q) :
    (applyOps s ops).WF ∧ atMostOnePrimary (applyOps s ops) q := by
  induction ops generalizing s with
  | nil => exact ⟨hWF, hI⟩
  | cons op ops ih =>
    exact ih (applyOp s op) (applyOp_WF s op hWF) (applyOp_count s op q hWF hI)

theorem applyPatch_url (r : ImageRecord) (p : ImagePatch) :
    (applyPatch r p).url = p.url.getD r.url := rfl

theorem applyPatch_caption (r : ImageRecord) (p : ImagePatch) :
    (applyPatch r p).caption = p.caption.getD r.caption := rfl

theorem applyPatch_displayOrder (r : ImageRecord) (p : ImagePatch) :
    (applyPatch r p).displayOrder = p.displayOrder.getD r.displayOrder := rfl

theorem applyPatch_width (r : ImageRecord) (p : ImagePatch) :
    (applyPatch r p).width = p.width.getD r.width := rfl

theorem applyPatch_height (r : ImageRecord) (p : ImagePatch) :
    (applyPatch r p).height = p.height.getD r.height := rfl

theorem applyPatch_rotation (r : ImageRecord) (p : ImagePatch) :
    (applyPatch r p).rotation = p.rotation.getD r.rotation := rfl

theorem applyPatch_dateModified (r : ImageRecord) (p : ImagePatch) :
    (applyPatch r p).dateModified = p.dateModified.getD r.dateModified := rfl

/-- The single-record update rewrites exactly the found record. -/
theorem getById_update (s : Store) (id : Nat) (P : ImagePatch) (ex : ImageRecord)
    (hex : s.getById id = some ex) :
    (s.update id P).getById id = some (applyPatch ex P) := by
  have hexid : ex.id = id := (getById_mem s id ex hex).2
  unfold Store.getById
  rw [Store.update_records, find?_id_map s.records (updFun id P) (updFun_id id P) id]
  have hfind : s.records.find? (fun r => r.id == id) = some ex := hex
  rw [hfind]
  show some (updFun id P ex) = some (applyPatch ex P)
  unfold updFun
  rw [if_pos (by simp [hexid])]

/-- A sweep that excludes the looked-up id does not disturb that record. -/
theorem getById_sweep_excl (s : Store) (p id now : Nat) (ex : ImageRecord)
    (hex : s.getById id = some ex) :
    (sweepPrimary s p (some id) now).getById id = some ex := by
  have hexid : ex.id = id := (getById_mem s id ex hex).2
  unfold Store.getById
  rw [sweepPrimary_records,
    find?_id_map s.records _ (sweepFun_id now (some id) (s.getByProductId p)) id]
  have hfind : s.records.find? (fun r => r.id == id) = some ex := hex
  rw [hfind]
  show some (sweepFun now (some id) (s.getByProductId p) ex) = some ex
  rw [sweepFun_excl_self _ id now ex hexid]

/-- The displayOrder resolution of create, read off the definition. -/
theorem create_snd_displayOrder (s : Store) (input : CreateInput) (now : Nat) :
    (productImageCreate s input now).2.displayOrder =
      (if input.displayOrder.getD 0 == 0 then
        (if ((createSwept s input now).getByProductId input.productId).length > 0 then
          (((createSwept s input now).getByProductId input.productId).map
            (fun i => i.displayOrder)).foldl Nat.max 0 + 1
        else 1)
      else input.displayOrder.getD 0) := rfl

/-- The conditional create sweep changes no displayOrder and removes no
record, so the sibling displayOrder list is untouched. -/
theorem createSwept_displayOrders (s : Store) (input : CreateInput) (now p : Nat) :
    ((createSwept s input now).getByProductId p).map (fun r => r.displayOrder) =
      (s.getByProductId p).map (fun r => r.displayOrder) := by
  unfold createSwept
  split
  · unfold Store.getByProductId
    rw [sweepPrimary_records, List.filter_map, List.map_map]
    have h1 : List.filter
        ((fun r => r.productId == p) ∘ sweepFun now none (s.getByProductId input.productId))
        s.records = List.filter (fun r => r.productId == p) s.records := by
      apply List.filter_congr
      intro r _
      simp only [Function.comp]
      rw [sweepFun_productId]
    rw [h1]
    apply List.map_congr_left
    intro r _
    simp only [Function.comp]
    rw [sweepFun_displayOrder]
  · rfl

theorem createSwept_getByProductId_length (s : Store) (input : CreateInput) (now p : Nat) :
    ((createSwept s input now).getByProductId p).length = (s.getByProductId p).length := by
  have h := congrArg List.length (createSwept_displayOrders s input now p)
  simpa using h

theorem sweepFun_none_notPrimary2 (s : Store) (p now : Nat) (r : ImageRecord)
    (hr : r ∈ s.records) (hp : r.productId = p) :
    (sweepFun now none (s.getByProductId p) r).isPrimary = false :=
  sweepFun_none_notPrimary s.records p now r hr hp

theorem sweepFun_none_flips2 (s : Store) (p now : Nat) (r : ImageRecord)
    (hr : r ∈ s.records) (hp : r.productId = p) (hprim : r.isPrimary = true) :
    sweepFun now none (s.getByProductId p) r = applyPatch r (flipPatch now) :=
  sweepFun_none_flips s.records p now r hr hp hprim

/-!
The claims.
-/

/-- C1: For every product id P and every finite sequence of engine
operations (create, update, setPrimary, reorder, delete) starting from a
well-formed state in which at most one record with productId = P has
isPrimary = true, the resulting state again has at most one record with
productId = P and isPrimary = true. A failing operation leaves the store
untouched, so this covers in particular every sequence of successful
operations. -/
theorem claim1_primary_invariant (p : Nat) (s : Store) (ops : List Op)
    (hWF : s.WF) (hI : atMostOnePrimary s p) :
    atMostOnePrimary (applyOps s ops) p :=
  (applyOps_both ops s p hWF hI).2

theorem claim1_witness :
    emptyStore.WF ∧ atMostOnePrimary emptyStore 9 ∧
      atMostOnePrimary
        (applyOps emptyStore
          [Op.create wInputA 1, Op.create wInputB 2, Op.setPrimary 1 3]) 9 :=
  ⟨by decide, by decide,
    claim1_primary_invariant 9 emptyStore
      [Op.create wInputA 1, Op.create wInputB 2, Op.setPrimary 1 3]
      (by decide) (by decide)⟩

/-- C2: For every valid create input: if the supplied displayOrder is
omitted or equal to 0, the displayOrder of the created record equals
max(displayOrder over existing records with the same productId) plus one,
or 1 when no such sibling record exists; if a non-zero displayOrder is
supplied, the displayOrder of the created record equals exactly that value. -/
theorem claim2_displayOrder (s : Store) (input : CreateInput) (now : Nat) :
    ((input.displayOrder = none ∨ input.displayOrder = some 0) →
      (productImageCreate s input now).2.displayOrder =
        (if (s.getByProductId input.productId).length > 0 then
          ((s.getByProductId input.productId).map (fun r => r.displayOrder)).foldl
            Nat.max 0 + 1
        else 1)) ∧
    (∀ d, input.displayOrder = some d → d ≠ 0 →
      (productImageCreate s input now).2.displayOrder = d) := by
  constructor
  · intro hd
    rw [create_snd_displayOrder]
    have hd0 : input.displayOrder.getD 0 = 0 := by
      rcases hd with h | h <;> simp [h]
    rw [hd0]
    rw [if_pos (by simp)]
    rw [createSwept_displayOrders s input now input.productId,
      createSwept_getByProductId_length s input now input.productId]
  · intro d hd hne
    rw [create_snd_displayOrder, hd]
    have : ((some d).getD 0 == 0) = false := by simp [hne]
    rw [this]
    · rfl

theorem claim2_witness :
    (productImageCreate c2store c2input 2).2.displayOrder = 5 ∧
    (productImageCreate c2store c4input1 2).2.displayOrder = 2 := by
  constructor
  · rw [(claim2_displayOrder c2store c2input 2).1 (Or.inl rfl)]
    decide
  · exact (claim2_displayOrder c2store c4input1 2).2 2 rfl (by decide)

/-- C3: For every well-formed state in which some record Q with
productId = P has isPrimary = true, a create of a new image for P with
isPrimary = true yields a state where the newly created record is the only
record of P with isPrimary = true, the isPrimary of Q is false, and the
dateModified of Q has been updated to the timestamp of the operation. -/
theorem claim3_create_primary (s : Store) (input : CreateInput) (now : Nat)
    (Q : ImageRecord) (hWF : s.WF) (hQ : Q ∈ s.records)
    (hQp : Q.productId = input.productId) (hQprim : Q.isPrimary = true)
    (hPrim : input.isPrimary = some true) :
    (∀ r ∈ (productImageCreate s input now).1.records,
        r.productId = input.productId → r.isPrimary = true →
        r = (productImageCreate s input now).2) ∧
    (productImageCreate s input now).2.isPrimary = true ∧
    (productImageCreate s input now).2 ∈ (productImageCreate s input now).1.records ∧
    ((productImageCreate s input now).1.getById Q.id).map
        (fun q2 => (q2.isPrimary, q2.dateModified)) = some (false, now) := by
  have hp : input.isPrimary.getD false = true := by rw [hPrim]; rfl
  have hcs : createSwept s input now = sweepPrimary s input.productId none now := by
    unfold createSwept
    rw [if_pos hp]
  have hrecs : (productImageCreate s input now).1.records =
      (s.records.map (sweepFun now none (s.getByProductId input.productId))) ++
        [(productImageCreate s input now).2] := by
    rw [create_fst, Store.add_records, hcs, sweepPrimary_records]
  refine ⟨?_, ?_, ?_, ?_⟩
  · intro r hr hrp hrprim
    rw [hrecs] at hr
    rcases List.mem_append.mp hr with h1 | h2
    · exfalso
      obtain ⟨r0, hr0, hr0e⟩ := List.mem_map.mp h1
      have hr0p : r0.productId = input.productId := by
        rw [← hr0e, sweepFun_productId] at hrp
        exact hrp
      have hflip := sweepFun_none_notPrimary2 s input.productId now r0 hr0 hr0p
      rw [hr0e] at hflip
      rw [hflip] at hrprim
      exact absurd hrprim (by simp)
    · simpa using h2
  · rw [create_snd_isPrimary, hPrim]
    rfl
  · rw [hrecs]
    exact List.mem_append.mpr (Or.inr (by simp))
  · show (((productImageCreate s input now).1.records.find?
        (fun r => r.id == Q.id)).map (fun q2 => (q2.isPrimary, q2.dateModified))) = _
    rw [hrecs, List.find?_append,
      find?_id_map s.records _ (sweepFun_id now none (s.getByProductId input.productId)) Q.id]
    have hfind : s.records.find? (fun r => r.id == Q.id) = some Q :=
      getById_of_mem s hWF.1 Q hQ
    rw [hfind]
    have hflip := sweepFun_none_flips2 s input.productId now Q hQ hQp hQprim
    show ((some (sweepFun now none (s.getByProductId input.productId) Q)).or _).map _ = _
    rw [hflip]
    rfl

theorem claim3_witness :
    ((productImageCreate wStore wInputB 2).1.getById wRecord.id).map
        (fun q2 => (q2.isPrimary, q2.dateModified)) = some (false, 2) ∧
    (productImageCreate wStore wInputB 2).2.isPrimary = true :=
  ⟨(claim3_create_primary wStore wInputB 2 wRecord (by decide) (by decide)
      (by decide) (by decide) rfl).2.2.2,
   (claim3_create_primary wStore wInputB 2 wRecord (by decide) (by decide)
      (by decide) (by decide) rfl).2.1⟩

/-- C4 as stated is false on the code: the list operation applies no sort,
so a product whose records were inserted with descending displayOrder
values comes back in insertion order. The store here is reached by two
ordinary creates. -/
theorem claim4_counterexample :
    ¬ ((productImageList c4store (some 5)).Pairwise
        (fun a b => a.displayOrder ≤ b.displayOrder)) := by decide

/-- C4 (amended): for every nonzero productId P, list(P) returns exactly
the records with productId = P, projected to the list response shape, in
store (insertion) order; no ordering by displayOrder is imposed. -/
theorem claim4_list_members (s : Store) (p : Nat) (hp : p ≠ 0) (x : ListResponse) :
    x ∈ productImageList s (some p) ↔
      ∃ r ∈ s.records, r.productId = p ∧ x = toListResponse r := by
  show x ∈ (if (p == 0) = true then s.records
      else s.records.filter (fun r => r.productId == p)).map toListResponse ↔ _
  rw [if_neg (by simp [hp])]
  rw [List.mem_map]
  constructor
  · rintro ⟨r, hr, hre⟩
    have h2 := List.mem_filter.mp hr
    exact ⟨r, h2.1, by simpa using h2.2, hre.symm⟩
  · rintro ⟨r, hr, hrp, hx⟩
    exact ⟨r, List.mem_filter.mpr ⟨hr, by simp [hrp]⟩, hx.symm⟩

theorem claim4_witness :
    toListResponse c4rec1 ∈ productImageList c4store (some 5) :=
  (claim4_list_members c4store 5 (by decide) (toListResponse c4rec1)).mpr
    ⟨c4rec1, by decide, by decide, rfl⟩

/-- C5: For every id present in the store, delete(id) succeeds and removes
exactly that record: a subsequent get(id) fails with NOT_FOUND, every
record with a different id survives unchanged (in particular the
displayOrder and isPrimary of no sibling is touched, even when the deleted
record was the primary of its product), and nothing else is present
afterwards. -/
theorem claim5_delete (s : Store) (id : Nat) (hex : s.existsId id = true) :
    ∃ s2, productImageDelete s id = .ok s2 ∧
      productImageGet s2 id = .error .notFound ∧
      (∀ r ∈ s.records, r.id ≠ id → r ∈ s2.records) ∧
      (∀ r ∈ s2.records, r ∈ s.records ∧ r.id ≠ id) := by
  refine ⟨s.deleteId id, delete_ok s id hex, ?_, ?_, ?_⟩
  · apply get_notFound
    show (s.records.filter (fun r => r.id != id)).find? (fun r => r.id == id) = none
    rw [List.find?_eq_none]
    intro x hx
    have h2 := (List.mem_filter.mp hx).2
    simp at h2 ⊢
    exact h2
  · intro r hr hne
    show r ∈ s.records.filter (fun r => r.id != id)
    rw [List.mem_filter]
    exact ⟨hr, by simp [hne]⟩
  · intro r hr
    have h2 := List.mem_filter.mp hr
    exact ⟨h2.1, by simpa using h2.2⟩

theorem claim5_witness :
    productImageDelete wStore 1 = .ok (wStore.deleteId 1) ∧
    productImageGet (wStore.deleteId 1) 1 = .error .notFound := by
  obtain ⟨s2, hdel, hget, -, -⟩ := claim5_delete wStore 1 (by decide)
  have hd2 : productImageDelete wStore 1 = .ok (wStore.deleteId 1) :=
    delete_ok wStore 1 (by decide)
  have hs2 : s2 = wStore.deleteId 1 := by
    rw [hdel] at hd2
    exact Except.ok.inj hd2
  exact ⟨hd2, hs2 ▸ hget⟩

/-- C6: every id-addressed operation (get, update, delete, reorder,
setPrimary) invoked with an id that is not present fails with NOT_FOUND
and leaves the record set exactly as it was; absence is never a
successful no-op. -/
theorem claim6_notFound (s : Store) (id : Nat) (input : UpdateInput)
    (newOrder now : Nat) (h : s.getById id = none) :
    productImageGet s id = .error .notFound ∧
    productImageUpdate s id input now = .error .notFound ∧
    productImageDelete s id = .error .notFound ∧
    productImageReorder s id newOrder now = .error .notFound ∧
    productImageSetPrimary s id now = .error .notFound ∧
    applyOp s (Op.update id input now) = s ∧
    applyOp s (Op.delete id) = s ∧
    applyOp s (Op.reorder id newOrder now) = s ∧
    applyOp s (Op.setPrimary id now) = s := by
  have hex : s.existsId id = false := (getById_none_iff s id).mp h
  refine ⟨get_notFound s id h, update_notFound s id input now h,
    delete_notFound s id hex, reorder_notFound s id newOrder now h,
    setPrimary_notFound s id now h, ?_, ?_, ?_, ?_⟩
  · simp only [applyOp, update_notFound s id input now h]
  · simp only [applyOp, delete_notFound s id hex]
  · simp only [applyOp, reorder_notFound s id newOrder now h]
  · simp only [applyOp, setPrimary_notFound s id now h]

theorem claim6_witness :
    productImageGet wStore 99 = .error .notFound ∧
    productImageUpdate wStore 99 wUpdate 5 = .error .notFound ∧
    productImageDelete wStore 99 = .error .notFound ∧
    productImageReorder wStore 99 4 5 = .error .notFound ∧
    productImageSetPrimary wStore 99 5 = .error .notFound ∧
    applyOp wStore (Op.update 99 wUpdate 5) = wStore ∧
    applyOp wStore (Op.delete 99) = wStore ∧
    applyOp wStore (Op.reorder 99 4 5) = wStore ∧
    applyOp wStore (Op.setPrimary 99 5) = wStore :=
  claim6_notFound wStore 99 wUpdate 4 5 (by decide)

/-- C7: a successful update on an existing record takes url from the
input, keeps the prior value of every unspecified optional field,
refreshes dateModified to the timestamp of the operation, and leaves id,
productId and dateCreated unchanged. -/
theorem claim7_update (s : Store) (id : Nat) (input : UpdateInput) (now : Nat)
    (ex : ImageRecord) (hex : s.getById id = some ex) :
    ∃ s2, productImageUpdate s id input now = .ok s2 ∧
      ∃ r2, s2.getById id = some r2 ∧
        r2.url = input.url ∧
        (input.caption = none → r2.caption = ex.caption) ∧
        (input.isPrimary = none → r2.isPrimary = ex.isPrimary) ∧
        (input.displayOrder = none → r2.displayOrder = ex.displayOrder) ∧
        (input.width = none → r2.width = ex.width) ∧
        (input.height = none → r2.height = ex.height) ∧
        (input.rotation = none → r2.rotation = ex.rotation) ∧
        r2.dateModified = now ∧ r2.id = ex.id ∧
        r2.productId = ex.productId ∧ r2.dateCreated = ex.dateCreated := by
  refine ⟨_, update_ok s id input now ex hex, ?_⟩
  have h1 : (if input.isPrimary.getD false && !ex.isPrimary then
      sweepPrimary s ex.productId (some id) now else s).getById id = some ex := by
    split
    · exact getById_sweep_excl s ex.productId id now ex hex
    · exact hex
  refine ⟨_, getById_update _ id _ ex h1, ?_, ?_, ?_, ?_, ?_, ?_, ?_, ?_, ?_, ?_, ?_⟩
  · rfl
  · intro hc
    rw [applyPatch_caption, hc]
    rfl
  · intro hc
    rw [applyPatch_isPrimary, hc]
    rfl
  · intro hc
    rw [applyPatch_displayOrder, hc]
    rfl
  · intro hc
    rw [applyPatch_width, hc]
    rfl
  · intro hc
    rw [applyPatch_height, hc]
    rfl
  · intro hc
    rw [applyPatch_rotation, hc]
    rfl
  · rfl
  · rfl
  · rfl
  · rfl

theorem claim7_witness :
    wStore.getById 1 = some wRecord ∧
    ((productImageUpdate wStore 1 wUpdate 7).toOption.bind
      (fun s2 => (s2.getById 1).map
        (fun r2 => (r2.url, r2.caption, r2.dateModified, r2.dateCreated)))) =
      some (wUpdate.url, wRecord.caption, 7, wRecord.dateCreated) := by
  refine ⟨by decide, ?_⟩
  obtain ⟨s2, hok, r2, hget, hurl, hcap, -, -, -, -, -, hdm, -, -, hdc⟩ :=
    claim7_update wStore 1 wUpdate 7 wRecord (by decide)
  rw [hok]
  show (s2.getById 1).map _ = _
  rw [hget]
  simp [hurl, hcap rfl, hdm, hdc]

/-- C8: on a loaded list of length N with the index in bounds, goToNext
moves the index to (i + 1) mod N and goToPrevious to (i - 1 + N) mod N,
each resetting zoom to 1.0 and rotation to 0; on an empty list both are
complete no-ops. -/
theorem claim8_navigation (α : Type) (g : GalleryState α) :
    (g.images.length = 0 → goToNext g = g ∧ goToPrevious g = g) ∧
    (1 ≤ g.images.length → 0 ≤ g.currentIndex →
      g.currentIndex ≤ (g.images.length : Int) - 1 →
      ((goToNext g).currentIndex = (g.currentIndex + 1) % (g.images.length : Int) ∧
        (goToNext g).zoomLevel = 1 ∧ (goToNext g).rotation = 0 ∧
        (goToPrevious g).currentIndex =
          (g.currentIndex - 1 + g.images.length) % (g.images.length : Int) ∧
        (goToPrevious g).zoomLevel = 1 ∧ (goToPrevious g).rotation = 0)) := by
  constructor
  · intro h
    unfold goToNext goToPrevious
    rw [if_pos (by simp [h]), if_pos (by simp [h])]
    exact ⟨rfl, rfl⟩
  · intro hlen hge hle
    have hcond : ¬((g.images.length == 0) = true) := by
      intro hc
      have h0 : g.images.length = 0 := by simpa using hc
      omega
    unfold goToNext goToPrevious
    simp only [if_neg hcond]
    refine ⟨?_, trivial, trivial, ?_, trivial, trivial⟩
    · exact Int.tmod_eq_emod (by omega) (by omega)
    · exact Int.tmod_eq_emod (by omega) (by omega)

theorem claim8_witness :
    (goToNext (initGallery [0, 1, 2] : GalleryState Nat)).currentIndex = 1 ∧
    (goToPrevious (initGallery [0, 1, 2] : GalleryState Nat)).currentIndex = 2 ∧
    (goToNext (goToImage (initGallery [0, 1, 2] : GalleryState Nat) 2)).currentIndex = 0 := by
  have h1 := (claim8_navigation Nat (initGallery [0, 1, 2])).2
    (by decide) (by decide) (by decide)
  have h2 := (claim8_navigation Nat (goToImage (initGallery [0, 1, 2]) 2)).2
    (by decide) (by decide) (by decide)
  refine ⟨?_, ?_, ?_⟩
  · rw [h1.1]
    decide
  · rw [h1.2.2.2.1]
    decide
  · rw [h2.1]
    decide

/-- C9 as stated is false on the code: the controller keeps currentIndex
across a list refresh, so after two goToNext transitions on a three-image
list and a refresh to a one-image list the index 2 lies outside the new
bounds 0..0. -/
theorem claim9_counterexample :
    ¬ (0 ≤ (refreshImages c9state [10]).currentIndex ∧
        (refreshImages c9state [10]).currentIndex ≤
          ((refreshImages c9state [10]).images.length : Int) - 1) := by decide

/-- C9 (amended): the controller performs no re-clamping on a list
refresh: the refresh leaves currentIndex exactly as it was, and whenever
the refreshed list is no longer than the current index, currentImage is
undefined. -/
theorem claim9_no_reclamp (α : Type) (g : GalleryState α) (newImages : List α) :
    (refreshImages g newImages).currentIndex = g.currentIndex ∧
    ((newImages.length : Int) ≤ g.currentIndex →
      currentImage (refreshImages g newImages) = none) := by
  refine ⟨rfl, ?_⟩
  intro hle
  unfold currentImage
  rw [if_neg]
  intro hcontra
  obtain ⟨-, h2⟩ := hcontra
  simp only [refreshImages] at h2
  omega

theorem claim9_witness :
    (refreshImages c9state [10]).currentIndex = c9state.currentIndex ∧
    currentImage (refreshImages c9state [10]) = none := by
  have h := claim9_no_reclamp Nat c9state [10]
  exact ⟨h.1, h.2 (by decide)⟩

/-- C10: an update whose caption field is an explicit null behaves exactly
like one whose caption is omitted: the prior caption is retained, so an
update can never clear a caption back to null. -/
theorem claim10_null_caption (s : Store) (id : Nat) (input : UpdateInput) (now : Nat)
    (ex : ImageRecord) (hex : s.getById id = some ex)
    (hcap : input.caption = some none) :
    productImageUpdate s id input now =
      productImageUpdate s id { input with caption := none } now ∧
    ∃ s2, productImageUpdate s id input now = .ok s2 ∧
      ∃ r2, s2.getById id = some r2 ∧ r2.caption = ex.caption := by
  constructor
  · rw [update_ok s id input now ex hex,
      update_ok s id { input with caption := none } now ex hex]
    rw [hcap]
    rfl
  · refine ⟨_, update_ok s id input now ex hex, ?_⟩
    have h1 : (if input.isPrimary.getD false && !ex.isPrimary then
        sweepPrimary s ex.productId (some id) now else s).getById id = some ex := by
      split
      · exact getById_sweep_excl s ex.productId id now ex hex
      · exact hex
    refine ⟨_, getById_update _ id _ ex h1, ?_⟩
    rw [applyPatch_caption, hcap]
    rfl

theorem claim10_witness :
    productImageUpdate wStore 1 wUpdateNull 7 =
      productImageUpdate wStore 1 { wUpdateNull with caption := none } 7 :=
  (claim10_null_caption wStore 1 wUpdateNull 7 wRecord (by decide) rfl).1

end ProductImage
